import Mathlib

/-!
Verification of the pomodoro timer extension (`src/extension.ts`).

The program keeps a single mutable record `pomodoroState` together with a
timer handle `currentTimer`.  We embed the record as `PomodoroState`, and the
timer machinery as a `Machine` carrying the handle variable (`currentTimer`,
an `Option` of a timeout id), the multiset of timeouts that are actually
armed in the host timer queue (`pending`, as a list of id/delay pairs),
and a fresh-id counter (`nextId`).  A `clearTimeout` removes the referenced
id from the queue; a `setTimeout` appends a fresh id.  Wall-clock reads
(the calls to `Date.now()`) become an explicit `now : Int` argument, and
each call to `Math.random()` becomes an explicit rational `r` with
`0 ≤ r < 1`.
-/

/-- The `PomodoroState` interface (extension.ts lines 6-15), with the
initial values of the global `pomodoroState` record as field defaults
elsewhere; times and durations are milliseconds. -/
structure PomodoroState where
  isActive : Bool
  isPaused : Bool
  startTime : Int
  pausedTime : Int
  totalDuration : Int
  intervalMin : Int
  intervalMax : Int
  restDuration : Int
deriving DecidableEq

/-- The initial global `pomodoroState` (extension.ts lines 18-27). -/
def initialPomodoroState : PomodoroState :=
  { isActive := false
    isPaused := false
    startTime := 0
    pausedTime := 0
    totalDuration := 90 * 60 * 1000
    intervalMin := 3 * 60 * 1000
    intervalMax := 5 * 60 * 1000
    restDuration := 10 * 1000 }

/-- The module state: the pomodoro record, the `currentTimer` handle
variable (extension.ts line 29), the timeouts armed in the host timer queue
(id, delay), and a counter supplying fresh timeout ids. -/
structure Machine where
  pom : PomodoroState
  currentTimer : Option Nat
  pending : List (Nat × ℚ)
  nextId : Nat
deriving DecidableEq

/-- The module state at activation: initial record, no timer armed. -/
def initMachine : Machine :=
  { pom := initialPomodoroState, currentTimer := none, pending := [], nextId := 0 }

/-- `getElapsedTime` (extension.ts lines 138-144): `pausedTime` while
paused, else `pausedTime + (Date.now() - startTime)`. -/
def getElapsedTime (s : PomodoroState) (now : Int) : Int :=
  if s.isPaused then s.pausedTime else s.pausedTime + (now - s.startTime)

/-- The `if (currentTimer) { clearTimeout(currentTimer); currentTimer =
undefined; }` pattern (extension.ts lines 92-95, 120-123, 227-230):
removes the referenced timeout from the host queue and clears the
handle variable. -/
def clearCurrentTimer (m : Machine) : Machine :=
  match m.currentTimer with
  | none => m
  | some id => { m with currentTimer := none
                        pending := m.pending.filter (fun e => e.1 ≠ id) }

/-- `endPomodoro` (extension.ts lines 223-246): clears both flags and the
current timer.  The notification / restart prompt it then shows is host UI
and mutates no state by itself. -/
def endPomodoro (m : Machine) : Machine :=
  clearCurrentTimer
    { m with pom := { m.pom with isActive := false, isPaused := false } }

/-- The delay computed at extension.ts line 211:
`Math.random() * (intervalMax - intervalMin) + intervalMin`. -/
def randomInterval (s : PomodoroState) (r : ℚ) : ℚ :=
  r * ((s.intervalMax : ℚ) - (s.intervalMin : ℚ)) + (s.intervalMin : ℚ)

/-- `scheduleNextBreak` (extension.ts lines 200-218): no-op unless active
and unpaused; ends the pomodoro when elapsed reached `totalDuration`;
otherwise arms a fresh timeout with the random delay and stores its handle
in `currentTimer` (without clearing any previously armed timeout). -/
def scheduleNextBreak (m : Machine) (now : Int) (r : ℚ) : Machine :=
  if !m.pom.isActive || m.pom.isPaused then m
  else if m.pom.totalDuration ≤ getElapsedTime m.pom now then endPomodoro m
  else
    { m with currentTimer := some m.nextId
             pending := m.pending ++ [(m.nextId, randomInterval m.pom r)]
             nextId := m.nextId + 1 }

/-- The state-mutating content of `updateStatusBar` (extension.ts lines
249-287), run at each call and at each self-rearmed one-second tick
(lines 282-286): the inactive branch (lines 250-254) and the paused branch
(lines 256-264) only render; the running branch computes
`remaining = totalDuration - elapsed` and calls `endPomodoro` when
`remaining <= 0` (lines 267-273), otherwise renders and rearms.  The calls
from `pausePomodoro`, `stopPomodoro`, `resetPomodoro` and `endPomodoro`
run in a paused or inactive state and so mutate nothing. -/
def statusTick (m : Machine) (now : Int) : Machine :=
  if !m.pom.isActive then m
  else if m.pom.isPaused then m
  else if m.pom.totalDuration - getElapsedTime m.pom now ≤ 0 then endPomodoro m
  else m

/-- `startPomodoro` (extension.ts lines 70-80): sets the fields, then
`updateStatusBar` (line 76), then `scheduleNextBreak` (line 77). -/
def startPomodoro (m : Machine) (now : Int) (r : ℚ) : Machine :=
  scheduleNextBreak
    (statusTick
      { m with pom := { m.pom with isActive := true, isPaused := false
                                   startTime := now, pausedTime := 0 } }
      now)
    now r

/-- `pausePomodoro` (extension.ts lines 83-99). -/
def pausePomodoro (m : Machine) (now : Int) : Machine :=
  if !m.pom.isActive || m.pom.isPaused then m
  else
    clearCurrentTimer
      { m with pom := { m.pom with isPaused := true
                                   pausedTime :=
                                     m.pom.pausedTime + (now - m.pom.startTime) } }

/-- `resumePomodoro` (extension.ts lines 102-113): guard, then unpause and
restamp `startTime`, then `updateStatusBar` (line 108), then
`scheduleNextBreak` (line 109). -/
def resumePomodoro (m : Machine) (now : Int) (r : ℚ) : Machine :=
  if !m.pom.isActive || !m.pom.isPaused then m
  else
    scheduleNextBreak
      (statusTick
        { m with pom := { m.pom with isPaused := false, startTime := now } }
        now)
      now r

/-- `stopPomodoro` (extension.ts lines 116-126). -/
def stopPomodoro (m : Machine) : Machine :=
  clearCurrentTimer
    { m with pom := { m.pom with isActive := false, isPaused := false } }

/-- `resetPomodoro` (extension.ts lines 129-135). -/
def resetPomodoro (m : Machine) : Machine :=
  let m1 := stopPomodoro m
  { m1 with pom := { m1.pom with startTime := 0, pausedTime := 0 } }

/-- The `pomodoro.toggle` command body (extension.ts lines 44-52). -/
def togglePomodoro (m : Machine) (now : Int) (r : ℚ) : Machine :=
  if m.pom.isActive && !m.pom.isPaused then pausePomodoro m now
  else if m.pom.isPaused then resumePomodoro m now r
  else startPomodoro m now r

/-- Result of one tick of the rest-countdown interval
(extension.ts lines 172-196): abort when no longer active-and-unpaused,
decrement while the counter is positive, and otherwise finish (break-over
notification plus `scheduleNextBreak`). -/
inductive TickResult where
  | aborted
  | continuing (countdown : Nat)
  | completed
deriving DecidableEq

/-- One tick of the `setInterval` callback in `startRestCountdown`
(extension.ts lines 172-196), as a function of the pomodoro record at the
moment of the tick and the current `countdown` value. -/
def restTick (s : PomodoroState) (countdown : Nat) : TickResult :=
  if !s.isActive || s.isPaused then .aborted
  else if 0 < countdown then .continuing (countdown - 1)
  else .completed

/-- Runs `restTick` with an unchanging pomodoro record until it aborts
(`none`) or completes (`some k`, completion on the k-th one-second tick),
with `fuel` bounding the number of ticks simulated. -/
def restCountdownSteps (s : PomodoroState) (countdown : Nat) : Nat → Option Nat
  | 0 => none
  | fuel + 1 =>
    match restTick s countdown with
    | .aborted => none
    | .completed => some 1
    | .continuing c => (restCountdownSteps s c fuel).map (· + 1)

/-- Events driving the whole extension: the three registered commands
(extension.ts lines 44-64), the firing of an armed rest-trigger timeout
(the callback at lines 213-217), and the final tick of an in-flight rest
countdown (lines 180-195), which on natural completion calls
`scheduleNextBreak`. -/
inductive SysEvent where
  | toggleEv (now : Int) (r : ℚ)
  | restEv
  | resetEv
  | fireEv (id : Nat) (now : Int)
  | restDoneEv (now : Int) (r : ℚ)

/-- The extension state together with the number of in-flight rest
sequences (a `triggerRestBreak` whose countdown has neither aborted nor
completed yet). -/
structure SysState where
  mach : Machine
  resting : Nat
deriving DecidableEq

/-- The system state at activation. -/
def initSysState : SysState := { mach := initMachine, resting := 0 }

/-- One system step.  `toggleEv`/`resetEv` run the command bodies;
`restEv` runs the `pomodoro.rest` command (extension.ts lines 55-59),
beginning a rest sequence when active and unpaused; `fireEv id` fires the
armed timeout `id` (removing it from the host queue; the callback at lines
214-216 begins a rest sequence only if still active and unpaused);
`restDoneEv` is the final countdown tick: it drops the in-flight sequence,
and when the session is still active and unpaused it completes naturally
and calls `scheduleNextBreak` (lines 181-194). -/
def sysStep (σ : SysState) : SysEvent → SysState
  | .toggleEv now r => { σ with mach := togglePomodoro σ.mach now r }
  | .restEv =>
    if σ.mach.pom.isActive && !σ.mach.pom.isPaused then
      { σ with resting := σ.resting + 1 }
    else σ
  | .resetEv => { σ with mach := resetPomodoro σ.mach }
  | .fireEv id _ =>
    if (σ.mach.pending.filter (fun e => e.1 = id)).isEmpty then σ
    else
      let m1 := { σ.mach with pending := σ.mach.pending.filter (fun e => e.1 ≠ id) }
      if m1.pom.isActive && !m1.pom.isPaused then
        { mach := m1, resting := σ.resting + 1 }
      else { σ with mach := m1 }
  | .restDoneEv now r =>
    match σ.resting with
    | 0 => σ
    | k + 1 =>
      if σ.mach.pom.isActive && !σ.mach.pom.isPaused then
        { mach := scheduleNextBreak σ.mach now r, resting := k }
      else { σ with resting := k }

/-- Runs a sequence of system events from a state. -/
def runSys (σ : SysState) : List SysEvent → SysState
  | [] => σ
  | e :: evs => runSys (sysStep σ e) evs

/-- The events of a session trace after start: the pause and resume
commands, each carrying the wall-clock time at which it runs (and, for
resume, the random draw its rescheduling consumes), and the firing of the
self-rearming one-second status tick (extension.ts lines 282-286), whose
handler re-runs `updateStatusBar` and with it the completion check. -/
inductive PREvent where
  | pauseEv (t : Int)
  | resumeEv (t : Int) (r : ℚ)
  | tickEv (t : Int)

/-- Runs a sequence of pause/resume commands and status ticks on the
machine. -/
def runPR (m : Machine) : List PREvent → Machine
  | [] => m
  | .pauseEv t :: evs => runPR (pausePomodoro m t) evs
  | .resumeEv t r :: evs => runPR (resumePomodoro m t r) evs
  | .tickEv t :: evs => runPR (statusTick m t) evs

/-- Modelled from the spec: `the sum of the durations spent in Running`.
`runningSince` is `some t₀` when the session has been in `Running` since
time `t₀`, `none` while it sits in `Paused`; `acc` is the total duration of
the finished `Running` segments.  A pause while running closes the open
segment, a resume while paused opens one; invalid events change nothing;
a status tick renders and neither opens nor closes a segment; at the end
of the trace an open segment extends to `now`. -/
def specRunningSum (runningSince : Option Int) (acc : Int) :
    List PREvent → Int → Int
  | [], now =>
    match runningSince with
    | some t0 => acc + (now - t0)
    | none => acc
  | .pauseEv t :: evs, now =>
    match runningSince with
    | some t0 => specRunningSum none (acc + (t - t0)) evs now
    | none => specRunningSum none acc evs now
  | .resumeEv t _ :: evs, now =>
    match runningSince with
    | some t0 => specRunningSum (some t0) acc evs now
    | none => specRunningSum (some t) acc evs now
  | .tickEv _ :: evs, now => specRunningSum runningSince acc evs now

/-! ### Helper lemmas -/

lemma clearCurrentTimer_pom (m : Machine) : (clearCurrentTimer m).pom = m.pom := by
  cases h : m.currentTimer <;> simp [clearCurrentTimer, h]

lemma clearCurrentTimer_currentTimer (m : Machine) :
    (clearCurrentTimer m).currentTimer = none ∨ m.currentTimer = none := by
  cases h : m.currentTimer <;> simp [clearCurrentTimer, h]

lemma clearCurrentTimer_pending_subset (m : Machine) :
    ∀ e ∈ (clearCurrentTimer m).pending, e ∈ m.pending := by
  intro e he
  cases h : m.currentTimer with
  | none =>
    rw [clearCurrentTimer.eq_def] at he
    simp only [h] at he
    exact he
  | some id =>
    rw [clearCurrentTimer.eq_def] at he
    simp only [h] at he
    exact List.mem_of_mem_filter he

lemma clearCurrentTimer_referenced_removed (m : Machine) (id : Nat) (d : ℚ)
    (h : m.currentTimer = some id) : (id, d) ∉ (clearCurrentTimer m).pending := by
  rw [clearCurrentTimer.eq_def]
  simp only [h]
  simp [List.mem_filter]

lemma endPomodoro_pom (m : Machine) :
    (endPomodoro m).pom = { m.pom with isActive := false, isPaused := false } := by
  rw [endPomodoro, clearCurrentTimer_pom]

lemma scheduleNextBreak_arm (m : Machine) (now : Int) (r : ℚ)
    (ha : m.pom.isActive = true) (hp : m.pom.isPaused = false)
    (hlt : getElapsedTime m.pom now < m.pom.totalDuration) :
    scheduleNextBreak m now r =
      { m with currentTimer := some m.nextId
               pending := m.pending ++ [(m.nextId, randomInterval m.pom r)]
               nextId := m.nextId + 1 } := by
  simp [scheduleNextBreak, ha, hp, not_le.mpr hlt]

lemma scheduleNextBreak_end (m : Machine) (now : Int) (r : ℚ)
    (ha : m.pom.isActive = true) (hp : m.pom.isPaused = false)
    (hge : m.pom.totalDuration ≤ getElapsedTime m.pom now) :
    scheduleNextBreak m now r = endPomodoro m := by
  simp [scheduleNextBreak, ha, hp, hge]

lemma scheduleNextBreak_pom (m : Machine) (now : Int) (r : ℚ) :
    (scheduleNextBreak m now r).pom = m.pom ∨
    (scheduleNextBreak m now r).pom =
      { m.pom with isActive := false, isPaused := false } := by
  rw [scheduleNextBreak]
  split
  · exact Or.inl rfl
  split
  · exact Or.inr (endPomodoro_pom m)
  · exact Or.inl rfl

lemma scheduleNextBreak_inactive_noop (m : Machine) (now : Int) (r : ℚ)
    (h : m.pom.isActive = false) : scheduleNextBreak m now r = m := by
  simp [scheduleNextBreak, h]

lemma statusTick_inactive_noop (m : Machine) (now : Int)
    (h : m.pom.isActive = false) : statusTick m now = m := by
  simp [statusTick, h]

lemma statusTick_paused_noop (m : Machine) (now : Int)
    (h : m.pom.isPaused = true) : statusTick m now = m := by
  cases ha : m.pom.isActive <;> simp [statusTick, ha, h]

lemma statusTick_running_keep (m : Machine) (now : Int)
    (ha : m.pom.isActive = true) (hp : m.pom.isPaused = false)
    (hpos : 0 < m.pom.totalDuration - getElapsedTime m.pom now) :
    statusTick m now = m := by
  simp [statusTick, ha, hp, not_le.mpr hpos]

lemma statusTick_running_end (m : Machine) (now : Int)
    (ha : m.pom.isActive = true) (hp : m.pom.isPaused = false)
    (hle : m.pom.totalDuration - getElapsedTime m.pom now ≤ 0) :
    statusTick m now = endPomodoro m := by
  simp [statusTick, ha, hp, hle]

lemma statusTick_pom (m : Machine) (now : Int) :
    (statusTick m now).pom = m.pom ∨
    (statusTick m now).pom =
      { m.pom with isActive := false, isPaused := false } := by
  rw [statusTick]
  split
  · exact Or.inl rfl
  split
  · exact Or.inl rfl
  split
  · exact Or.inr (endPomodoro_pom m)
  · exact Or.inl rfl

/-! ### Claims -/

/-- Claim C10: completion is not represented distinctly in the data model.
The state mutation of `endPomodoro` is exactly that of `stopPomodoro`: both
set `isActive := false` and `isPaused := false`, cancel the referenced
timer, and leave `startTime` and `pausedTime` at their prior values, so the
resulting record is indistinguishable from one produced by `stopPomodoro`
with the same prior field values. -/
theorem C10_end_indistinguishable_from_stop (m : Machine) :
    endPomodoro m = stopPomodoro m ∧
    (endPomodoro m).pom.isActive = false ∧
    (endPomodoro m).pom.isPaused = false ∧
    (endPomodoro m).currentTimer = none ∧
    (endPomodoro m).pom.startTime = m.pom.startTime ∧
    (endPomodoro m).pom.pausedTime = m.pom.pausedTime := by
  refine ⟨rfl, ?_, ?_, ?_, ?_, ?_⟩ <;>
    cases h : m.currentTimer <;>
      simp [endPomodoro, clearCurrentTimer, h]

/-- Claim C9: `stopPomodoro` from any state clears both flags and cancels
the pending wake-up (the timeout referenced by `currentTimer` leaves the
host queue and the handle is cleared), while leaving `pausedTime` and
`startTime` untouched: stop banks no elapsed time. -/
theorem C9_stop_clears_flags_and_timer (m : Machine) :
    (stopPomodoro m).pom.isActive = false ∧
    (stopPomodoro m).pom.isPaused = false ∧
    (stopPomodoro m).currentTimer = none ∧
    (stopPomodoro m).pom.pausedTime = m.pom.pausedTime ∧
    (stopPomodoro m).pom.startTime = m.pom.startTime ∧
    ∀ id d, m.currentTimer = some id → (id, d) ∉ (stopPomodoro m).pending := by
  refine ⟨?_, ?_, ?_, ?_, ?_, ?_⟩
  · cases h : m.currentTimer <;> simp [stopPomodoro, clearCurrentTimer, h]
  · cases h : m.currentTimer <;> simp [stopPomodoro, clearCurrentTimer, h]
  · cases h : m.currentTimer <;> simp [stopPomodoro, clearCurrentTimer, h]
  · cases h : m.currentTimer <;> simp [stopPomodoro, clearCurrentTimer, h]
  · cases h : m.currentTimer <;> simp [stopPomodoro, clearCurrentTimer, h]
  · exact fun id d h1 =>
      clearCurrentTimer_referenced_removed
        { m with pom := { m.pom with isActive := false, isPaused := false } } id d h1

/-- Witness for C9 at a concrete machine with an armed timer. -/
theorem C9_stop_clears_flags_and_timer_witness :
    (5, (200000 : ℚ)) ∉
      (stopPomodoro
        { pom := { initialPomodoroState with isActive := true }
          currentTimer := some 5
          pending := [(5, (200000 : ℚ))]
          nextId := 6 }).pending :=
  (C9_stop_clears_flags_and_timer _).2.2.2.2.2 5 200000 rfl

/-- Claim C7: invalid pause and resume attempts are silent no-ops.
`pausePomodoro` in any state other than Running (active and unpaused)
returns the entire module state unchanged, and `resumePomodoro` in any
state other than Paused (active and paused) returns it unchanged; neither
has any error path. -/
theorem C7_invalid_pause_resume_noop (m : Machine) (now : Int) (r : ℚ) :
    (¬(m.pom.isActive = true ∧ m.pom.isPaused = false) → pausePomodoro m now = m) ∧
    (¬(m.pom.isActive = true ∧ m.pom.isPaused = true) → resumePomodoro m now r = m) := by
  constructor <;> intro h <;>
    cases ha : m.pom.isActive <;> cases hp : m.pom.isPaused <;>
      simp_all [pausePomodoro, resumePomodoro]

/-- Witness for C7: in the inactive initial state both commands are
no-ops. -/
theorem C7_invalid_pause_resume_noop_witness :
    pausePomodoro initMachine 10 = initMachine ∧
    resumePomodoro initMachine 10 0 = initMachine :=
  ⟨(C7_invalid_pause_resume_noop initMachine 10 0).1 (by decide),
   (C7_invalid_pause_resume_noop initMachine 10 0).2 (by decide)⟩

/-- Claim C4: for every arm operation and every value of the random source
in `[0,1)`, the chosen delay `r * (intervalMax - intervalMin) + intervalMin`
lies in `[180000, 300000]` ms inclusive.  (The transitions never write the
interval fields, so they keep the initial values 180000 and 300000.) -/
theorem C4_random_interval_bounds (s : PomodoroState) (r : ℚ)
    (hmin : s.intervalMin = 180000) (hmax : s.intervalMax = 300000)
    (h0 : 0 ≤ r) (h1 : r < 1) :
    180000 ≤ randomInterval s r ∧ randomInterval s r ≤ 300000 := by
  rw [randomInterval, hmin, hmax]
  push_cast
  constructor <;> nlinarith

/-- Witness for C4 at the initial record and the draw `r = 1/2`. -/
theorem C4_random_interval_bounds_witness :
    180000 ≤ randomInterval initialPomodoroState (1/2) ∧
    randomInterval initialPomodoroState (1/2) ≤ 300000 :=
  C4_random_interval_bounds initialPomodoroState (1/2) rfl rfl
    (by norm_num) (by norm_num)

/-- Counterexample to claim C5 as stated: after `resetPomodoro` the
elapsed time as computed by `getElapsedTime` is the current wall-clock
reading, not 0, because reset writes `startTime := 0` instead of the reset
moment: evaluated at `now = 1000` it returns 1000. -/
theorem C5_counterexample :
    getElapsedTime
      (resetPomodoro
        { pom := { initialPomodoroState with
                     isActive := true, startTime := 500, pausedTime := 3000 }
          currentTimer := some 0
          pending := [(0, (200000 : ℚ))]
          nextId := 1 }).pom 1000 = 1000 ∧
    getElapsedTime
      (resetPomodoro
        { pom := { initialPomodoroState with
                     isActive := true, startTime := 500, pausedTime := 3000 }
          currentTimer := some 0
          pending := [(0, (200000 : ℚ))]
          nextId := 1 }).pom 1000 ≠ 0 := by
  constructor <;> decide

/-- Amended claim C5: after `resetPomodoro` from any prior state the state
is Idle (`isActive = false`, `isPaused = false`, no timer armed) and the
banked fields are exactly zero (`startTime = 0`, `pausedTime = 0`); the
function `getElapsedTime`, taken in the unpaused branch, therefore returns
the wall-clock argument `now` itself — which is 0 exactly when `now = 0`,
not for every `now`. -/
theorem C5_reset_idle_and_zeroed (m : Machine) (now : Int) :
    (resetPomodoro m).pom.isActive = false ∧
    (resetPomodoro m).pom.isPaused = false ∧
    (resetPomodoro m).currentTimer = none ∧
    (resetPomodoro m).pom.startTime = 0 ∧
    (resetPomodoro m).pom.pausedTime = 0 ∧
    getElapsedTime (resetPomodoro m).pom now = now := by
  refine ⟨?_, ?_, ?_, ?_, ?_, ?_⟩ <;>
    cases h : m.currentTimer <;>
      simp [resetPomodoro, stopPomodoro, clearCurrentTimer, getElapsedTime, h]

/-- Claim C2: whenever `scheduleNextBreak` runs in the Running state with
total elapsed time at least `totalDuration` (5400000 ms), the result is
exactly `endPomodoro`: both flags become false, the referenced pending
timer is cancelled, and no new rest trigger is armed (the fresh-id counter
is unchanged and no timeout is appended). -/
theorem C2_completion_instead_of_arming (m : Machine) (now : Int) (r : ℚ)
    (ht : m.pom.totalDuration = 5400000)
    (ha : m.pom.isActive = true) (hp : m.pom.isPaused = false)
    (hge : 5400000 ≤ getElapsedTime m.pom now) :
    scheduleNextBreak m now r = endPomodoro m ∧
    (scheduleNextBreak m now r).pom.isActive = false ∧
    (scheduleNextBreak m now r).pom.isPaused = false ∧
    (scheduleNextBreak m now r).currentTimer = none ∧
    (scheduleNextBreak m now r).nextId = m.nextId ∧
    (∀ e ∈ (scheduleNextBreak m now r).pending, e ∈ m.pending) ∧
    ∀ id d, m.currentTimer = some id → (id, d) ∉ (scheduleNextBreak m now r).pending := by
  have hge2 : m.pom.totalDuration ≤ getElapsedTime m.pom now := by
    rw [ht]; exact hge
  have hend := scheduleNextBreak_end m now r ha hp hge2
  rw [hend]
  refine ⟨rfl, ?_, ?_, ?_, ?_, ?_, ?_⟩
  · cases h : m.currentTimer <;> simp [endPomodoro, clearCurrentTimer, h]
  · cases h : m.currentTimer <;> simp [endPomodoro, clearCurrentTimer, h]
  · cases h : m.currentTimer <;> simp [endPomodoro, clearCurrentTimer, h]
  · cases h : m.currentTimer <;> simp [endPomodoro, clearCurrentTimer, h]
  · exact fun e he =>
      clearCurrentTimer_pending_subset
        { m with pom := { m.pom with isActive := false, isPaused := false } } e he
  · exact fun id d h1 =>
      clearCurrentTimer_referenced_removed
        { m with pom := { m.pom with isActive := false, isPaused := false } } id d h1

/-- Witness for C2: a Running machine whose banked time already equals the
total duration, checked at `now = 0`. -/
theorem C2_completion_instead_of_arming_witness :
    scheduleNextBreak
      { pom := { initialPomodoroState with
                   isActive := true, startTime := 0, pausedTime := 5400000 }
        currentTimer := some 3
        pending := [(3, (240000 : ℚ))]
        nextId := 4 } 0 0 =
    endPomodoro
      { pom := { initialPomodoroState with
                   isActive := true, startTime := 0, pausedTime := 5400000 }
        currentTimer := some 3
        pending := [(3, (240000 : ℚ))]
        nextId := 4 } :=
  (C2_completion_instead_of_arming _ 0 0 rfl rfl rfl (by decide)).1

/-- The invariant of claim C6: a paused session is active. -/
def pausedImpActive (m : Machine) : Prop :=
  m.pom.isPaused = true → m.pom.isActive = true

/-- Claim C6: the invariant `isPaused implies isActive` holds in the
initial state and is preserved by every transition — start, pause, resume,
stop, reset and completion — so no reachable state has `isPaused = true`
with `isActive = false`. -/
theorem C6_paused_implies_active (m : Machine) (now : Int) (r : ℚ)
    (h : pausedImpActive m) :
    pausedImpActive initMachine ∧
    pausedImpActive (startPomodoro m now r) ∧
    pausedImpActive (pausePomodoro m now) ∧
    pausedImpActive (resumePomodoro m now r) ∧
    pausedImpActive (stopPomodoro m) ∧
    pausedImpActive (resetPomodoro m) ∧
    pausedImpActive (endPomodoro m) := by
  refine ⟨fun hp => absurd hp (by decide), ?_, ?_, ?_, ?_, ?_, ?_⟩
  · rw [startPomodoro]
    rcases statusTick_pom
        { m with pom := { m.pom with isActive := true, isPaused := false
                                     startTime := now, pausedTime := 0 } }
        now with h1 | h1 <;>
      rcases scheduleNextBreak_pom
          (statusTick
            { m with pom := { m.pom with isActive := true, isPaused := false
                                         startTime := now, pausedTime := 0 } }
            now)
          now r with hc | hc <;>
        simp [pausedImpActive, hc, h1]
  · rw [pausePomodoro]
    split
    · exact h
    · rename_i hg
      intro _
      rw [clearCurrentTimer_pom]
      cases ha : m.pom.isActive <;> cases hp : m.pom.isPaused <;> simp_all
  · rw [resumePomodoro]
    split
    · exact h
    · rcases statusTick_pom
          { m with pom := { m.pom with isPaused := false, startTime := now } }
          now with h1 | h1 <;>
        rcases scheduleNextBreak_pom
            (statusTick
              { m with pom := { m.pom with isPaused := false, startTime := now } }
              now)
            now r with hc | hc <;>
          simp [pausedImpActive, hc, h1]
  · intro hp
    rw [stopPomodoro, clearCurrentTimer_pom] at hp
    simp at hp
  · intro hp
    simp [resetPomodoro, stopPomodoro, clearCurrentTimer_pom] at hp
  · intro hp
    rw [endPomodoro, clearCurrentTimer_pom] at hp
    simp at hp

/-- Witness for C6 at the initial machine. -/
theorem C6_paused_implies_active_witness :
    pausedImpActive (startPomodoro initMachine 0 0) :=
  (C6_paused_implies_active initMachine 0 0 (fun hp => absurd hp (by decide))).2.1

lemma pause_inactive_noop (m : Machine) (t : Int)
    (h : m.pom.isActive = false) : pausePomodoro m t = m := by
  simp [pausePomodoro, h]

lemma resume_inactive_noop (m : Machine) (t : Int) (r : ℚ)
    (h : m.pom.isActive = false) : resumePomodoro m t r = m := by
  simp [resumePomodoro, h]

lemma runPR_inactive_eq (evs : List PREvent) :
    ∀ m : Machine, m.pom.isActive = false → runPR m evs = m := by
  induction evs with
  | nil => intro m _; rfl
  | cons e evs ih =>
    intro m h
    cases e with
    | pauseEv t => rw [runPR, pause_inactive_noop m t h]; exact ih m h
    | resumeEv t r => rw [runPR, resume_inactive_noop m t r h]; exact ih m h
    | tickEv t => rw [runPR, statusTick_inactive_noop m t h]; exact ih m h

lemma runPR_tick_schedule_active (m2 : Machine) (t : Int) (r : ℚ) (evs : List PREvent)
    (ha : m2.pom.isActive = true) (hp : m2.pom.isPaused = false)
    (hfin : (runPR (scheduleNextBreak (statusTick m2 t) t r) evs).pom.isActive = true) :
    statusTick m2 t = m2 ∧
    getElapsedTime m2.pom t < m2.pom.totalDuration ∧
    scheduleNextBreak (statusTick m2 t) t r =
      { m2 with currentTimer := some m2.nextId
                pending := m2.pending ++ [(m2.nextId, randomInterval m2.pom r)]
                nextId := m2.nextId + 1 } := by
  by_cases h0 : m2.pom.totalDuration - getElapsedTime m2.pom t ≤ 0
  · exfalso
    rw [statusTick_running_end m2 t ha hp h0] at hfin
    rw [scheduleNextBreak_inactive_noop _ t r (by rw [endPomodoro_pom])] at hfin
    rw [runPR_inactive_eq evs _ (by rw [endPomodoro_pom])] at hfin
    rw [endPomodoro_pom] at hfin
    simp at hfin
  · push_neg at h0
    have hkeep := statusTick_running_keep m2 t ha hp h0
    have hlt : getElapsedTime m2.pom t < m2.pom.totalDuration := by omega
    rw [hkeep]
    exact ⟨rfl, hlt, scheduleNextBreak_arm m2 t r ha hp hlt⟩

lemma elapsed_runPR (evs : List PREvent) :
    ∀ (m : Machine) (now : Int),
      m.pom.isActive = true →
      (runPR m evs).pom.isActive = true →
      getElapsedTime (runPR m evs).pom now =
        specRunningSum (if m.pom.isPaused then none else some m.pom.startTime)
          m.pom.pausedTime evs now := by
  induction evs with
  | nil =>
    intro m now _ _
    cases hp : m.pom.isPaused <;> simp [runPR, getElapsedTime, specRunningSum, hp]
  | cons e evs ih =>
    intro m now ha hfin
    cases e with
    | pauseEv t =>
      cases hp : m.pom.isPaused with
      | true =>
        have hnoop : pausePomodoro m t = m := by simp [pausePomodoro, hp]
        rw [runPR, hnoop] at hfin ⊢
        rw [ih m now ha hfin]
        simp [specRunningSum, hp]
      | false =>
        have hstep : pausePomodoro m t =
            clearCurrentTimer
              { m with pom := { m.pom with isPaused := true
                                           pausedTime :=
                                             m.pom.pausedTime + (t - m.pom.startTime) } } := by
          simp [pausePomodoro, ha, hp]
        rw [runPR, hstep] at hfin ⊢
        have hpom := clearCurrentTimer_pom
          { m with pom := { m.pom with isPaused := true
                                       pausedTime :=
                                         m.pom.pausedTime + (t - m.pom.startTime) } }
        have ha2 : (clearCurrentTimer
            { m with pom := { m.pom with isPaused := true
                                         pausedTime :=
                                           m.pom.pausedTime + (t - m.pom.startTime) } }).pom.isActive
            = true := by rw [hpom]; exact ha
        rw [ih _ now ha2 hfin, hpom]
        simp [specRunningSum, hp]
    | resumeEv t r =>
      cases hp : m.pom.isPaused with
      | false =>
        have hnoop : resumePomodoro m t r = m := by simp [resumePomodoro, hp]
        rw [runPR, hnoop] at hfin ⊢
        rw [ih m now ha hfin]
        simp [specRunningSum, hp]
      | true =>
        have hstep : resumePomodoro m t r =
            scheduleNextBreak
              (statusTick
                { m with pom := { m.pom with isPaused := false, startTime := t } }
                t)
              t r := by
          simp [resumePomodoro, ha, hp]
        rw [runPR, hstep] at hfin ⊢
        obtain ⟨_, _, harm⟩ := runPR_tick_schedule_active
          { m with pom := { m.pom with isPaused := false, startTime := t } }
          t r evs (by exact ha) rfl hfin
        rw [harm] at hfin ⊢
        rw [ih _ now (by exact ha) hfin]
        simp [specRunningSum, hp]
    | tickEv t =>
      cases hp : m.pom.isPaused with
      | true =>
        have hnoop : statusTick m t = m := statusTick_paused_noop m t hp
        rw [runPR, hnoop] at hfin ⊢
        rw [ih m now ha hfin]
        simp [specRunningSum, hp]
      | false =>
        by_cases h0 : m.pom.totalDuration - getElapsedTime m.pom t ≤ 0
        · exfalso
          rw [runPR] at hfin
          rw [statusTick_running_end m t ha hp h0] at hfin
          rw [runPR_inactive_eq evs _ (by rw [endPomodoro_pom])] at hfin
          rw [endPomodoro_pom] at hfin
          simp at hfin
        · push_neg at h0
          have hnoop := statusTick_running_keep m t ha hp h0
          rw [runPR, hnoop] at hfin ⊢
          rw [ih m now ha hfin]
          simp [specRunningSum, hp]

/-- Counterexample to claim C1 as universally stated: on the trace
start at 0, pause at 5400000, resume at 5400001, pause at 5400002,
`getElapsedTime` read at `now = 6000000` gives 5999999, while the sum of
the durations of the Running segments of the trace is 5400001 (the resume
crossed `totalDuration`, so `scheduleNextBreak` completed the session; the
later wall-clock time still accrues through the unpaused branch of
`getElapsedTime` even though the session is no longer Running). -/
theorem C1_counterexample :
    getElapsedTime
      (runPR (startPomodoro initMachine 0 (1/2))
        [PREvent.pauseEv 5400000, PREvent.resumeEv 5400001 (1/2),
         PREvent.pauseEv 5400002]).pom 6000000 = 5999999 ∧
    specRunningSum (some 0) 0
      [PREvent.pauseEv 5400000, PREvent.resumeEv 5400001 (1/2),
       PREvent.pauseEv 5400002] 6000000 = 5400001 := by
  constructor <;> decide

/-- Amended claim C1: for every sequence of start/pause/resume transitions
with given wall-clock times, arbitrarily interleaved with firings of the
renderer's self-rearming one-second status tick (each start, resume and
tick runs the completion check of `updateStatusBar`, which calls
`endPomodoro` once remaining time is non-positive), provided the session
does not complete during the trace — among these events only a completion
check deactivates, so this is equivalent to the final state still being
active — the elapsed time computed by `getElapsedTime` (`pausedTime` if
paused, else `pausedTime + (now - startTime)`) equals the sum of the
durations of the Running segments of the trace and never counts time spent
Paused; in particular start at t=0 and pause at t=60000 give elapsed
60000, and resume at t=120000 followed by pause at t=150000 gives elapsed
90000.  Once a completion check fires — whether reached by a resume or by
a status tick — `getElapsedTime` diverges from the Running-segment sum. -/
theorem C1_elapsed_is_running_sum :
    (∀ (m : Machine) (t0 now : Int) (r : ℚ) (evs : List PREvent),
        (runPR (startPomodoro m t0 r) evs).pom.isActive = true →
        getElapsedTime (runPR (startPomodoro m t0 r) evs).pom now =
          specRunningSum (some t0) 0 evs now) ∧
    getElapsedTime
      (runPR (startPomodoro initMachine 0 (1/2)) [PREvent.pauseEv 60000]).pom
      60000 = 60000 ∧
    getElapsedTime
      (runPR (startPomodoro initMachine 0 (1/2))
        [PREvent.pauseEv 60000, PREvent.resumeEv 120000 (1/2),
         PREvent.pauseEv 150000]).pom 150000 = 90000 := by
  refine ⟨?_, by decide, by decide⟩
  intro m t0 now r evs hfin
  rw [startPomodoro] at hfin ⊢
  obtain ⟨_, _, harm⟩ := runPR_tick_schedule_active
    { m with pom := { m.pom with isActive := true, isPaused := false
                                 startTime := t0, pausedTime := 0 } }
    t0 r evs rfl rfl hfin
  rw [harm] at hfin ⊢
  rw [elapsed_runPR evs _ now rfl hfin]
  simp

/-- Witness for C1 on the scenario trace start at 0, pause at 60000: the
general equality instantiates to the spec-level Running sum. -/
theorem C1_elapsed_is_running_sum_witness :
    getElapsedTime
      (runPR (startPomodoro initMachine 0 (1/2)) [PREvent.pauseEv 60000]).pom
      60000 =
    specRunningSum (some 0) 0 [PREvent.pauseEv 60000] 60000 :=
  C1_elapsed_is_running_sum.1 initMachine 0 60000 (1/2)
    [PREvent.pauseEv 60000] (by decide)

/-- Counterexample to claim C3 as stated: a state with two armed
rest-trigger callbacks is reachable.  Toggle starts the session and arms
timeout 0; the manual rest command begins a rest sequence; its countdown
completes naturally at t = 19000 (long before the 180000 ms minimum delay
of timeout 0, which is therefore still pending) and calls
`scheduleNextBreak`, which arms timeout 1 without clearing timeout 0. -/
theorem C3_counterexample :
    (runSys initSysState
      [SysEvent.toggleEv 0 (1/2), SysEvent.restEv,
       SysEvent.restDoneEv 19000 (1/2)]).mach.pending.length = 2 := by
  decide

/-- Amended claim C3: arming does not cancel previously armed callbacks.
When `scheduleNextBreak` arms (session active and unpaused, elapsed below
`totalDuration`), every previously armed rest-trigger callback stays in
the host queue and exactly one fresh callback is appended, with the handle
variable now referencing only the fresh one; hence more than one armed
rest-trigger callback can exist at a time.  Cancellation happens only in
pause, stop and completion, which cancel just the callback referenced by
`currentTimer`. -/
theorem C3_arming_cancels_nothing (m : Machine) (now : Int) (r : ℚ)
    (ha : m.pom.isActive = true) (hp : m.pom.isPaused = false)
    (hlt : getElapsedTime m.pom now < m.pom.totalDuration) :
    (∀ e ∈ m.pending, e ∈ (scheduleNextBreak m now r).pending) ∧
    (scheduleNextBreak m now r).pending =
      m.pending ++ [(m.nextId, randomInterval m.pom r)] ∧
    (scheduleNextBreak m now r).currentTimer = some m.nextId := by
  rw [scheduleNextBreak_arm m now r ha hp hlt]
  exact ⟨fun e he => List.mem_append_left _ he, rfl, rfl⟩

/-- Witness for C3 amended: arming from a running machine with timeout 0
already armed keeps timeout 0 pending. -/
theorem C3_arming_cancels_nothing_witness :
    (0, (240000 : ℚ)) ∈
      (scheduleNextBreak
        { pom := { initialPomodoroState with isActive := true }
          currentTimer := some 0
          pending := [(0, (240000 : ℚ))]
          nextId := 1 } 1000 0).pending :=
  (C3_arming_cancels_nothing
      { pom := { initialPomodoroState with isActive := true }
        currentTimer := some 0
        pending := [(0, (240000 : ℚ))]
        nextId := 1 } 1000 0
      rfl rfl (by decide)).1 (0, (240000 : ℚ)) (by decide)

/-- Claim C8, evaluated at the failing input (a rest countdown with the
session Running throughout): the countdown decrements on ticks 1 to 10 and
runs its completion branch only on the 11th one-second tick, so the
break-over notification fires 11 ticks after the countdown starts — not 10
as the claim (and the code record field `restDuration` with its comment,
and the notification text promising a 10-second rest) state.  A tick in a
paused state aborts the countdown. -/
theorem C8_countdown_completes_on_eleventh_tick :
    restCountdownSteps { initialPomodoroState with isActive := true } 10 20
      = some 11 ∧
    restCountdownSteps { initialPomodoroState with isActive := true } 10 20
      ≠ some 10 ∧
    restTick { initialPomodoroState with isActive := true, isPaused := true } 5
      = TickResult.aborted := by
  refine ⟨by decide, by decide, by decide⟩
